import Mathlib

/-
Verification of the shakti storage-engine core (src/shakti/shakti.go).

The Go code is shallowly embedded: each Lean definition below is translated
from the corresponding Go function in src/shakti/shakti.go; byte slices are
List Nat (each element a byte value), uint64 values are Nat taken modulo 2^64
where overflow matters, int64 values are Int, fallible results carry an
Option error code, and the external memtable's write results are supplied as
an explicit oracle list (one result per memtable.Write call).

Helpers from packages of this repository that are not under src/ (the
common and cmn packages: byte codecs, key prefix encoding, big-endian byte
increment) are modelled from the spec; their doc comments start with
"Modelled from the spec:".
-/

namespace Shakti

/-- Modelled from the spec: `le_u64(sequence)` — the little-endian 8-byte
encoding of a u64 written by common.AppendUint64ToBufferLE, which is not
under src/. Byte 0 is least significant. -/
def leU64 (v : Nat) : List Nat :=
  [v % 256, v / 256 % 256, v / 65536 % 256, v / 16777216 % 256,
   v / 4294967296 % 256, v / 1099511627776 % 256,
   v / 281474976710656 % 256, v / 72057594037927936 % 256]

/-- Modelled from the spec: `be_u64(processor_id)` — the big-endian 8-byte
encoding of a u64 written by common.AppendUint64ToBufferBE, which is not
under src/. -/
def beU64 (v : Nat) : List Nat := (leU64 v).reverse

/-- Modelled from the spec: common.ReadUint64FromBufferLE (not under src/)
decodes a little-endian u64 from the first 8 bytes of a buffer. -/
def readU64LE (bs : List Nat) : Nat :=
  match bs with
  | b0 :: b1 :: b2 :: b3 :: b4 :: b5 :: b6 :: b7 :: _ =>
      b0 + 256 * b1 + 65536 * b2 + 16777216 * b3 + 4294967296 * b4 +
      1099511627776 * b5 + 281474976710656 * b6 + 72057594037927936 * b7
  | _ => 0

/-- Go conversion uint64(x) of an int64 x: two's-complement reinterpretation,
i.e. the value modulo 2^64. -/
def toUInt64 (i : Int) : Nat := (i % 18446744073709551616).toNat

/-- Go conversion int64(x) of a uint64 x: two's-complement reinterpretation
of a value below 2^64. -/
def toInt64 (n : Nat) : Int :=
  if n < 9223372036854775808 then (n : Int)
  else (n : Int) - 18446744073709551616

/-- Byte-wise increment of a little-endian-ordered byte list (helper for
incrementBytesBigEndian): adds one to the first byte, carrying into the
rest; an all-255 input wraps to all zeros. -/
def incrementByteListRev : List Nat → List Nat
  | [] => []
  | b :: rest => if b = 255 then 0 :: incrementByteListRev rest else (b + 1) :: rest

/-- Modelled from the spec: `increment_be_bytes` / common.IncrementBytesBigEndian
(not under src/) — the big-endian byte-wise increment `lastKey+0x00…01` used
both for the dedup range end and for iterator resume starts. -/
def incrementBytesBigEndian (k : List Nat) : List Nat :=
  (incrementByteListRev k.reverse).reverse

/-- Modelled from the spec: cmn.SystemTableDedupID (not under src/), the
reserved system table id for dedup rows; its concrete value is irrelevant
to the claims. -/
def systemTableDedupID : Nat := 1

/-- Modelled from the spec: `encode_prefix(db_id, SYSTEM_TABLE_DEDUP_ID, shard=0)`
(cmn.EncodeKeyPrefix, not under src/): an injective encoding of the three ids;
the spec fixes no byte layout, so three big-endian u64 fields are used. -/
def encodeKeyPrefixBytes (dbID tableID shardID : Nat) : List Nat :=
  beU64 dbID ++ beU64 tableID ++ beU64 shardID

/-- Models Shakti.createDedupKey (shakti.go lines 141-145): the dedup key is
the system prefix followed by the big-endian processor id. -/
def createDedupKey (dbID processorID : Nat) : List Nat :=
  encodeKeyPrefixBytes dbID systemTableDedupID 0 ++ beU64 processorID

/-- Models cmn.KV: a key/value entry, both opaque byte sequences. -/
structure KV where
  key : List Nat
  value : List Nat
deriving DecidableEq

/-- Models the write-relevant field of cmn.Conf (not under src/; from the
spec's configuration table): DisableBatchSequenceInsertion skips the
dedup-row insertion. -/
structure Conf where
  disableBatchSequenceInsertion : Bool
deriving DecidableEq

/-- Models WriteBatch (shakti.go lines 92-97): processor id, sequence number
(-1 bypasses dedup) and the underlying batch's entries. The completion
callback is not modelled (it is only forwarded). -/
structure WriteBatch where
  processorID : Nat
  sequenceNum : Int
  entries : List KV
deriving DecidableEq

/-- Models sync.Map lookup on lastCommittedBatchSequences: the dedup map is
an association list from processor id to last accepted sequence number. -/
def lookupSeq : List (Nat × Int) → Nat → Option Int
  | [], _ => none
  | (q, w) :: rest, p => if q = p then some w else lookupSeq rest p

/-- Models sync.Map Store on lastCommittedBatchSequences: replaces the entry
for the processor, or inserts one. -/
def storeSeq : List (Nat × Int) → Nat → Int → List (Nat × Int)
  | [], p, v => [(p, v)]
  | (q, w) :: rest, p, v =>
      if q = p then (p, v) :: rest else (q, w) :: storeSeq rest p v

/-- Models Shakti.checkDedupCache (shakti.go lines 167-183): sequence -1
bypasses the check; otherwise a batch whose sequence is at most the recorded
one is a duplicate (false, map untouched); otherwise the map is updated to
the batch's sequence. Returns (ok, updated map). -/
def checkDedupCache (dedup : List (Nat × Int)) (batch : WriteBatch) :
    Bool × List (Nat × Int) :=
  if batch.sequenceNum = -1 then (true, dedup)
  else
    match lookupSeq dedup batch.processorID with
    | some lastSeq =>
        if batch.sequenceNum ≤ lastSeq then (false, dedup)
        else (true, storeSeq dedup batch.processorID batch.sequenceNum)
    | none => (true, storeSeq dedup batch.processorID batch.sequenceNum)

/-- Models Shakti.putDedupEntry (shakti.go lines 126-139): unless disabled by
configuration, appends to the batch one entry whose key is the processor's
dedup key and whose value is the little-endian encoding of
uint64(batch.SequenceNum). -/
def putDedupEntry (conf : Conf) (dbID : Nat) (batch : WriteBatch) : WriteBatch :=
  if conf.disableBatchSequenceInsertion then batch
  else
    { batch with entries := batch.entries ++
        [⟨createDedupKey dbID batch.processorID, leU64 (toUInt64 batch.sequenceNum)⟩] }

/-- Result of one mem.Memtable.Write call (external contract, spec section 6):
accepted, arena full (batch unapplied), or an error. -/
inductive MemWriteRes where
  | ok
  | full
  | err (e : Nat)
deriving DecidableEq

/-- Engine state touched by Shakti.Write: the dedup map, the sequence of
batches actually applied to a memtable (each recorded as its entry list at
the time of the successful write), and the number of memtable rotations. -/
structure WriteState where
  dedup : List (Nat × Int)
  applied : List (List KV)
  rotations : Nat
deriving DecidableEq

/-- Models Shakti.Write (shakti.go lines 103-124). The oracle lists the
result of each successive memtable.Write call (doWrite, lines 248-254): on
full, replaceMemtable runs (counted in rotations) and the loop retries from
the dedup check; on error the error is returned. The loop body checks the
dedup cache, then appends the dedup entry to the (mutable, shared) batch,
then attempts the memtable write. Returns (error?, state, final batch); an
exhausted oracle is a modelling artifact reported as error 0. -/
def Write (dbID : Nat) (conf : Conf) :
    List MemWriteRes → WriteState → WriteBatch →
    Option Nat × WriteState × WriteBatch
  | [], st, batch =>
    match checkDedupCache st.dedup batch with
    | (false, d) => (none, { st with dedup := d }, batch)
    | (true, d) => (some 0, { st with dedup := d }, putDedupEntry conf dbID batch)
  | r :: rest, st, batch =>
    match checkDedupCache st.dedup batch with
    | (false, d) => (none, { st with dedup := d }, batch)
    | (true, d) =>
      let batch2 := putDedupEntry conf dbID batch
      match r with
      | .ok =>
          (none, { st with dedup := d, applied := st.applied ++ [batch2.entries] },
           batch2)
      | .err e => (some e, { st with dedup := d }, batch2)
      | .full =>
          Write dbID conf rest
            { st with dedup := d, rotations := st.rotations + 1 } batch2

/-- Lexicographic strict order on byte-sequence keys (spec section 3: keys
compare lexicographically). -/
def lexLt : List Nat → List Nat → Bool
  | [], [] => false
  | [], _ :: _ => true
  | _ :: _, [] => false
  | a :: as, b :: bs => if a < b then true else if b < a then false else lexLt as bs

/-- Membership of a key in the half-open range of an iterator. -/
def inRange (rangeStart rangeEnd key : List Nat) : Bool :=
  !lexLt key rangeStart && lexLt key rangeEnd

/-- Entries of the stored state visible to an iterator over a half-open key
range, in storage order (abstracts the merging iterator built by
NewIterator for LoadLastBatchSequence). -/
def rangeOf (storage : List KV) (rangeStart rangeEnd : List Nat) : List KV :=
  storage.filter (fun kv => inRange rangeStart rangeEnd kv.key)

/-- Models Shakti.LoadLastBatchSequence (shakti.go lines 147-165): opens an
iterator over [dedup_key(p), increment_be_bytes(dedup_key(p))); if it is
valid, reads its current entry only, decodes the value as a little-endian
u64, and stores int64(value) in the dedup map for the processor. The storage
visible to the iterator is passed as an entry list. -/
def LoadLastBatchSequence (dbID processorID : Nat) (storage : List KV)
    (dedup : List (Nat × Int)) : List (Nat × Int) :=
  let rangeStart := createDedupKey dbID processorID
  let rangeEnd := incrementBytesBigEndian rangeStart
  match rangeOf storage rangeStart rangeEnd with
  | [] => dedup
  | kv :: _ => storeSeq dedup processorID (toInt64 (readU64LE kv.value))

/-- Models the iteration.Iterator sources held by a shaktiIterator's merging
iterator: the new-memtable iterators prepended on rotation (identified by
the memtable id and the requested range) and opaque sources present at
construction. -/
inductive SourceIter where
  | memtableIterator (mtId : Nat) (keyStart keyEnd : List Nat)
  | initialSource (n : Nat)
deriving DecidableEq

/-- Models shaktiIterator (shakti.go lines 529-536): the requested range,
the last delivered key (nil until Current has run), and the merging
iterator's source list in priority order, highest priority first. -/
structure ShaktiIter where
  rangeStart : List Nat
  rangeEnd : List Nat
  lastKey : Option (List Nat)
  mi : List SourceIter
deriving DecidableEq

/-- Models newShaktiIterator (shakti.go lines 514-527): a fresh handle has
no last delivered key (Go zero value nil). -/
def newShaktiIterator (rangeStart rangeEnd : List Nat)
    (iters : List SourceIter) : ShaktiIter :=
  { rangeStart := rangeStart, rangeEnd := rangeEnd, lastKey := none, mi := iters }

/-- Models the bookkeeping of shaktiIterator.Current (shakti.go lines
551-557): the key of the entry the merging iterator delivers is recorded as
lastKey; the delivered entry itself comes from the external merging
iterator and is passed in as curr. -/
def ShaktiIter.currentRecord (it : ShaktiIter) (curr : KV) : ShaktiIter :=
  { it with lastKey := some curr.key }

/-- Models the per-iterator body of Shakti.updateIterators together with
shaktiIterator.addNewMemtableIterator (shakti.go lines 234-246 and 542-544):
resume from the big-endian increment of the last delivered key if one
exists, else from the original range start; build an iterator over the new
memtable for [resume, rangeEnd) and prepend it to the merging iterator
(iteration.MergingIterator.PrependIterator, modelled from the spec as
consing onto the highest-priority slot of the source list). -/
def updateIterator (mtId : Nat) (it : ShaktiIter) : ShaktiIter :=
  let rs := match it.lastKey with
    | some lastKey => incrementBytesBigEndian lastKey
    | none => it.rangeStart
  { it with mi := SourceIter.memtableIterator mtId rs it.rangeEnd :: it.mi }

/-- Models Shakti.updateIterators (shakti.go lines 234-246): every live
registered iterator is spliced. -/
def updateIterators (mtId : Nat) (its : List ShaktiIter) : List ShaktiIter :=
  its.map (updateIterator mtId)

/-- Rotation-relevant engine state, mirroring the Shakti struct fields
(shakti.go lines 19-41): the active memtable (by id), the id the next
mem.NewMemtable call yields (freshMt), the registered iterators, the flush
queue (memtable ids in rotation order), mtLastReplace, and the number of
signals sent on mtFlushChan. -/
structure EngineRot where
  activeMt : Nat
  freshMt : Nat
  iterators : List ShaktiIter
  flushQueue : List Nat
  mtLastReplace : Nat
  flushSignals : Nat
deriving DecidableEq

/-- Models Shakti.replaceMemtable0 (shakti.go lines 198-232), run under the
exclusive lock: if the passed-in memtable is still the active one, install a
fresh memtable, splice every live iterator, append the old memtable to the
flush queue, signal the flush channel, and record the rotation time;
otherwise return with nothing changed. -/
def replaceMemtable0 (st : EngineRot) (memtable : Nat) (now : Nat) : EngineRot :=
  if memtable = st.activeMt then
    { activeMt := st.freshMt, freshMt := st.freshMt + 1,
      iterators := updateIterators st.freshMt st.iterators,
      flushQueue := st.flushQueue ++ [memtable],
      mtLastReplace := now,
      flushSignals := st.flushSignals + 1 }
  else st

/-- Go uint64 subtraction a - b: two's-complement wraparound modulo 2^64. -/
def uint64Sub (a b : Nat) : Nat :=
  (a % 18446744073709551616 + 18446744073709551616 - b % 18446744073709551616) %
    18446744073709551616

/-- Models Shakti.maybeReplaceMemtable (shakti.go lines 499-512): reads
mtLastReplace and the monotonic clock value now (common.NanoTime); if
mtLastReplace is zero (never replaced) or the uint64 difference
mtLastReplace - now is at least mtMaxReplaceTime, replaces the current
memtable. Returns whether rotation was attempted, with the new state. -/
def maybeReplaceMemtable (st : EngineRot) (now mtMaxReplaceTime : Nat) :
    Bool × EngineRot :=
  if st.mtLastReplace = 0 ∨ uint64Sub st.mtLastReplace now ≥ mtMaxReplaceTime then
    (true, replaceMemtable0 st st.activeMt now)
  else (false, st)

/-- Models the iteration.Iterator values assembled by Shakti.NewIterator:
memtable iterators, lazy sstable iterators, the chaining iterator (recording
the value of its argument list at construction time), and the nil slots a
freshly made Go iterator slice holds. -/
inductive NIter where
  | memtableIterator (mtId : Nat) (keyStart keyEnd : List Nat)
  | lazySSTableIterator (tableID : Nat) (keyStart keyEnd : List Nat)
  | chainingIterator (its : List NIter)
  | nilIter

/-- Models the flush-queue loop of Shakti.NewIterator (shakti.go lines
274-281): the flush-queue memtables' iterators are assigned newest first
from slot 1 on; callers pass the queue already reversed, matching the
source's traversal from the last element down. -/
def fillQueueIters (keyStart keyEnd : List Nat) :
    List Nat → List NIter → Nat → List NIter
  | [], iters, _ => iters
  | mt :: rest, iters, pos =>
      fillQueueIters keyStart keyEnd rest
        (iters.set pos (.memtableIterator mt keyStart keyEnd)) (pos + 1)

set_option linter.unusedVariables false in
/-- Models the sstable-group loop of Shakti.NewIterator (shakti.go lines
287-313). A singleton group puts a lazy sstable iterator in the next slot.
For a larger group the source builds chainIters — one lazy iterator per id
in the group — but then constructs the chaining iterator over the OUTER
iters slice instead of chainIters (line 310, NewChainingIterator(iters));
the model records the outer list's value at the moment of that call. -/
def fillSSTIters (keyStart keyEnd : List Nat) :
    List (List Nat) → List NIter → Nat → List NIter
  | [], iters, _ => iters
  | g :: rest, iters, pos =>
    match g with
    | [tid] =>
        fillSSTIters keyStart keyEnd rest
          (iters.set pos (.lazySSTableIterator tid keyStart keyEnd)) (pos + 1)
    | _ =>
        let chainIters := g.map fun tid =>
          NIter.lazySSTableIterator tid keyStart keyEnd
        fillSSTIters keyStart keyEnd rest
          (iters.set pos (.chainingIterator iters)) (pos + 1)

/-- Models the source-list construction of Shakti.NewIterator (shakti.go
lines 256-313): a slice of len(ids)+1+len(flushQueue) nil slots; slot 0
gets the current memtable's iterator; then the flush-queue memtables,
newest first; then one slot per non-overlap sstable group returned by
controller.GetTableIDsForRange (passed in as ids, newest group first). -/
def NewIteratorSources (ids : List (List Nat)) (currentMt : Nat)
    (flushQueue : List Nat) (keyStart keyEnd : List Nat) : List NIter :=
  let iters := List.replicate (ids.length + 1 + flushQueue.length) NIter.nilIter
  let iters := iters.set 0 (.memtableIterator currentMt keyStart keyEnd)
  let iters := fillQueueIters keyStart keyEnd flushQueue.reverse iters 1
  fillSSTIters keyStart keyEnd ids iters (1 + flushQueue.length)

/-- Models ssTableInfo (shakti.go lines 355-359). -/
structure SSTableInfo where
  ssTableID : Nat
  largestKey : List Nat
  smallestKey : List Nat
deriving DecidableEq

/-- Models mtFlushEntry (shakti.go lines 361-364): the frozen memtable (by
id) and the atomically assigned sstable info, set once the entry's upload
completes (setSSTableInfo); flushStarted records whether the run loop has
launched flushMemtable for this entry (the source expresses this through
the loop-local index pos). The source also nils the memtable reference of a
registered entry just before the drained prefix is trimmed; the trim covers
both in the model. -/
structure MtFlushEntry where
  memtable : Nat
  ssTabInfo : Option SSTableInfo
  flushStarted : Bool
deriving DecidableEq

instance : Inhabited MtFlushEntry := ⟨⟨0, none, false⟩⟩

/-- State of the flush pipeline (mtFlushRunLoop, shakti.go lines 380-445):
the flush queue, the loop-local index pos of the next entry to start
flushing, the memtable ids registered with the controller in registration
order, the id the next rotation enqueues, and whether the loop goroutine
has died (the source can reach an out-of-range access at
&mtFlushQueue[pos], and a registration error also ends the loop). -/
structure FlushLoopState where
  queue : List MtFlushEntry
  pos : Nat
  registered : List Nat
  nextMt : Nat
  crashed : Bool
deriving DecidableEq

/-- Models the head-drain loop of mtFlushRunLoop (shakti.go lines 389-413):
for i = 0; i < pos; i++, stop at the first entry whose ssTabInfo is not yet
set; each earlier entry is registered with the controller in queue order
(ApplyChanges with a single level-0 registration entry) and its memtable's
Committed callback runs. Returns the registered memtable ids in order
together with the count i of drained entries. -/
def drainRegistered : List MtFlushEntry → Nat → List Nat × Nat
  | _, 0 => ([], 0)
  | [], _ + 1 => ([], 0)
  | fe :: rest, pos + 1 =>
    match fe.ssTabInfo with
    | none => ([], 0)
    | some _ =>
        let r := drainRegistered rest pos
        (fe.memtable :: r.1, r.2 + 1)

/-- Models one iteration of mtFlushRunLoop for one received flush signal
(shakti.go lines 383-443): drain the registered prefix, trim it off the
queue, decrease pos accordingly; if entries were drained and pos now equals
the queue length, wait for the next signal; otherwise take the entry at pos
and launch flushMemtable for it in parallel, advancing pos. When pos is out
of range at the indexing step, the goroutine panics (crashed); a crashed
loop processes nothing further. -/
def flushSignalStep (st : FlushLoopState) : FlushLoopState :=
  if st.crashed then st
  else
    let r := drainRegistered st.queue st.pos
    let queue := st.queue.drop r.2
    let pos := st.pos - r.2
    let registered := st.registered ++ r.1
    if 0 < r.2 ∧ pos = queue.length then
      { st with queue := queue, pos := pos, registered := registered }
    else if pos < queue.length then
      { st with
          queue := queue.set pos { queue.getD pos default with flushStarted := true },
          pos := pos + 1, registered := registered }
    else
      { st with queue := queue, pos := pos, registered := registered,
                crashed := true }

/-- Events driving the flush pipeline: a rotation appending the old frozen
memtable to the queue (replaceMemtable0, shakti.go lines 223-228), the
completion of a parallel upload setting its entry's sstable info
(flushMemtable, lines 450-482), and the run loop consuming one
flush-channel signal. The schedule of events is adversarial, so uploads may
complete in any order relative to rotations and signals. -/
inductive FlushEvent where
  | rotate
  | uploadDone (j : Nat) (info : SSTableInfo)
  | signal

/-- One step of the flush pipeline under an event. An upload completion
applies only to an entry whose flush was started and whose info is still
unset. -/
def flushStep (st : FlushLoopState) : FlushEvent → FlushLoopState
  | .rotate =>
      { st with queue := st.queue ++ [⟨st.nextMt, none, false⟩],
                nextMt := st.nextMt + 1 }
  | .uploadDone j info =>
      let fe := st.queue.getD j default
      if j < st.queue.length ∧ fe.flushStarted = true ∧ fe.ssTabInfo = none then
        { st with queue := st.queue.set j { fe with ssTabInfo := some info } }
      else st
  | .signal => flushSignalStep st

/-- Runs the flush pipeline over a list of events. -/
def runFlushLoop (st : FlushLoopState) : List FlushEvent → FlushLoopState
  | [] => st
  | ev :: rest => runFlushLoop (flushStep st ev) rest

/-- Initial flush-pipeline state: empty queue, pos 0 (mtFlushRunLoop line
382), nothing registered. -/
def initFlushState : FlushLoopState :=
  { queue := [], pos := 0, registered := [], nextMt := 0, crashed := false }

/-- Memtable ids of a flush queue, in queue order. -/
def queueIds (q : List MtFlushEntry) : List Nat := q.map MtFlushEntry.memtable

/-- Invariant of the flush pipeline: the registered ids followed by the ids
still queued are exactly the rotation (enqueue) sequence 0, 1, 2, .... -/
def FlushInv (st : FlushLoopState) : Prop :=
  st.registered ++ queueIds st.queue = List.range st.nextMt

/-- Decoding the little-endian encoding of v yields v modulo 2^64. -/
lemma readU64LE_leU64 (v : Nat) : readU64LE (leU64 v) = v % 18446744073709551616 := by
  simp only [readU64LE, leU64]
  omega

/-- The uint64 reinterpretation of an int64 is below 2^64. -/
lemma toUInt64_lt (i : Int) : toUInt64 i < 18446744073709551616 := by
  unfold toUInt64
  omega

/-- Round trip: the little-endian u64 value written by the write path decodes
back to the same int64, for any value in int64 range. -/
lemma toInt64_roundtrip (seq : Int) (h1 : -9223372036854775808 ≤ seq)
    (h2 : seq < 9223372036854775808) :
    toInt64 (readU64LE (leU64 (toUInt64 seq))) = seq := by
  rw [readU64LE_leU64, Nat.mod_eq_of_lt (toUInt64_lt seq)]
  unfold toInt64 toUInt64
  split <;> omega

/-- Storing a sequence for a processor makes it the looked-up value. -/
lemma lookupSeq_storeSeq_self (m : List (Nat × Int)) (p : Nat) (v : Int) :
    lookupSeq (storeSeq m p v) p = some v := by
  induction m with
  | nil => simp [storeSeq, lookupSeq]
  | cons hd tl ih =>
      obtain ⟨q, w⟩ := hd
      by_cases h : q = p <;> simp [storeSeq, lookupSeq, h, ih]

/-- The dedup-entry insertion does not change the batch's sequence number. -/
lemma putDedupEntry_sequenceNum (conf : Conf) (dbID : Nat) (b : WriteBatch) :
    (putDedupEntry conf dbID b).sequenceNum = b.sequenceNum := by
  unfold putDedupEntry
  split <;> rfl

/-- The dedup-entry insertion does not change the batch's processor id. -/
lemma putDedupEntry_processorID (conf : Conf) (dbID : Nat) (b : WriteBatch) :
    (putDedupEntry conf dbID b).processorID = b.processorID := by
  unfold putDedupEntry
  split <;> rfl

/-- On a duplicate batch (sequence at most the recorded one) the dedup check
reports false and leaves the map untouched. -/
lemma checkDedupCache_duplicate (dedup : List (Nat × Int)) (b : WriteBatch)
    (lastSeq : Int) (h1 : b.sequenceNum ≠ -1)
    (h2 : lookupSeq dedup b.processorID = some lastSeq)
    (h3 : b.sequenceNum ≤ lastSeq) :
    checkDedupCache dedup b = (false, dedup) := by
  simp [checkDedupCache, h1, h2, h3]

/-- On a duplicate batch, Write returns success immediately, leaving the
engine state and the batch unchanged, regardless of the memtable oracle. -/
lemma write_duplicate_aux (dbID : Nat) (conf : Conf) (oracle : List MemWriteRes)
    (st : WriteState) (b : WriteBatch) (lastSeq : Int)
    (h1 : b.sequenceNum ≠ -1)
    (h2 : lookupSeq st.dedup b.processorID = some lastSeq)
    (h3 : b.sequenceNum ≤ lastSeq) :
    Write dbID conf oracle st b = (none, st, b) := by
  have hdup := checkDedupCache_duplicate st.dedup b lastSeq h1 h2 h3
  cases oracle with
  | nil => rw [Write, hdup]
  | cons r rest => cases r <;> rw [Write, hdup]

/-- Claim C4: for every WriteBatch with sequence_num different from -1 whose
sequence_num is at most the processor's recorded last sequence, Write returns
success (nil error) and leaves all engine state unchanged: nothing is
appended to the batch, no batch is applied to the memtable, no rotation
happens, and the dedup map keeps its previous value. -/
theorem write_duplicate_batch_noop (dbID : Nat) (conf : Conf)
    (oracle : List MemWriteRes) (st : WriteState) (b : WriteBatch) (lastSeq : Int)
    (h1 : b.sequenceNum ≠ -1)
    (h2 : lookupSeq st.dedup b.processorID = some lastSeq)
    (h3 : b.sequenceNum ≤ lastSeq) :
    Write dbID conf oracle st b = (none, st, b) :=
  write_duplicate_aux dbID conf oracle st b lastSeq h1 h2 h3

/-- Witness for C4 at a concrete duplicate batch. -/
theorem write_duplicate_batch_noop_witness :
    Write 0 ⟨false⟩ [] ⟨[(4, 10)], [], 0⟩ ⟨4, 10, []⟩ =
      (none, ⟨[(4, 10)], [], 0⟩, ⟨4, 10, []⟩) :=
  write_duplicate_batch_noop 0 ⟨false⟩ [] ⟨[(4, 10)], [], 0⟩ ⟨4, 10, []⟩ 10
    (by decide) (by decide) (by decide)

/-- On a batch that passes the dedup check, checkDedupCache updates the map
to the batch's sequence number. -/
lemma checkDedupCache_pass (dedup : List (Nat × Int)) (b : WriteBatch)
    (h1 : b.sequenceNum ≠ -1)
    (h2 : ∀ lastSeq, lookupSeq dedup b.processorID = some lastSeq →
          lastSeq < b.sequenceNum) :
    checkDedupCache dedup b =
      (true, storeSeq dedup b.processorID b.sequenceNum) := by
  unfold checkDedupCache
  rw [if_neg h1]
  cases h : lookupSeq dedup b.processorID with
  | none => rfl
  | some lastSeq => simp [not_le.mpr (h2 lastSeq h)]

/-- Claim C9: Write is not atomic on error. A batch with sequence_num other
than -1 that passes the dedup check first updates the dedup map and appends
the synthetic dedup entry; when the memtable write then fails, Write returns
that error without rolling either back, and resubmitting the same (mutated)
batch afterwards returns success without applying anything. -/
theorem write_error_not_rolled_back (dbID : Nat) (conf : Conf) (e : Nat)
    (rest : List MemWriteRes) (st : WriteState) (b : WriteBatch)
    (h1 : b.sequenceNum ≠ -1)
    (h2 : ∀ lastSeq, lookupSeq st.dedup b.processorID = some lastSeq →
          lastSeq < b.sequenceNum) :
    Write dbID conf (.err e :: rest) st b =
      (some e, { st with dedup := storeSeq st.dedup b.processorID b.sequenceNum },
       putDedupEntry conf dbID b) ∧
    ∀ oracle2 : List MemWriteRes,
      Write dbID conf oracle2
          { st with dedup := storeSeq st.dedup b.processorID b.sequenceNum }
          (putDedupEntry conf dbID b) =
        (none, { st with dedup := storeSeq st.dedup b.processorID b.sequenceNum },
         putDedupEntry conf dbID b) := by
  constructor
  · rw [Write, checkDedupCache_pass st.dedup b h1 h2]
  · intro oracle2
    apply write_duplicate_aux _ _ _ _ _ b.sequenceNum
    · rw [putDedupEntry_sequenceNum]; exact h1
    · show lookupSeq (storeSeq st.dedup b.processorID b.sequenceNum)
        (putDedupEntry conf dbID b).processorID = some b.sequenceNum
      rw [putDedupEntry_processorID]
      exact lookupSeq_storeSeq_self st.dedup b.processorID b.sequenceNum
    · rw [putDedupEntry_sequenceNum]

/-- Witness for C9 at a concrete batch and failing memtable write. -/
theorem write_error_not_rolled_back_witness :
    Write 0 ⟨false⟩ [.err 7] ⟨[], [], 0⟩ ⟨2, 3, []⟩ =
      (some 7, { dedup := storeSeq [] 2 3, applied := [], rotations := 0 },
       putDedupEntry ⟨false⟩ 0 ⟨2, 3, []⟩) ∧
    ∀ oracle2 : List MemWriteRes,
      Write 0 ⟨false⟩ oracle2
          { dedup := storeSeq [] 2 3, applied := [], rotations := 0 }
          (putDedupEntry ⟨false⟩ 0 ⟨2, 3, []⟩) =
        (none, { dedup := storeSeq [] 2 3, applied := [], rotations := 0 },
         putDedupEntry ⟨false⟩ 0 ⟨2, 3, []⟩) :=
  write_error_not_rolled_back 0 ⟨false⟩ 7 [] ⟨[], [], 0⟩ ⟨2, 3, []⟩
    (by decide) (fun lastSeq h => by simp [lookupSeq] at h)

/-- Go's uint64(-1) equals 2^64 - 1. -/
lemma toUInt64_neg_one : toUInt64 (-1) = 18446744073709551615 := by decide

/-- Claim C10: a WriteBatch with sequence_num -1 (the test-only bypass), with
batch-sequence insertion enabled, skips the dedup check and never updates the
dedup map, yet still gets a synthetic dedup entry appended whose value is the
little-endian encoding of 2^64 - 1 under the processor's dedup key; that
entry is stored with the batch when the memtable accepts it. -/
theorem write_seq_minus_one_bypass (dbID : Nat) (conf : Conf)
    (rest : List MemWriteRes) (st : WriteState) (b : WriteBatch)
    (hconf : conf.disableBatchSequenceInsertion = false)
    (hseq : b.sequenceNum = -1) :
    Write dbID conf (.ok :: rest) st b =
      (none,
       { st with applied := st.applied ++
           [b.entries ++ [⟨createDedupKey dbID b.processorID,
                           leU64 18446744073709551615⟩]] },
       { b with entries := b.entries ++
           [⟨createDedupKey dbID b.processorID, leU64 18446744073709551615⟩] }) := by
  have hc : checkDedupCache st.dedup b = (true, st.dedup) := by
    simp [checkDedupCache, hseq]
  have hp : putDedupEntry conf dbID b =
      { b with entries := b.entries ++
          [⟨createDedupKey dbID b.processorID, leU64 18446744073709551615⟩] } := by
    unfold putDedupEntry
    rw [hconf, hseq]
    simp [toUInt64_neg_one]
  rw [Write, hc, hp]

/-- Witness for C10 at a concrete bypass batch. -/
theorem write_seq_minus_one_bypass_witness :
    Write 0 ⟨false⟩ [.ok] ⟨[], [], 0⟩ ⟨3, -1, []⟩ =
      (none,
       ⟨[], [[⟨createDedupKey 0 3, leU64 18446744073709551615⟩]], 0⟩,
       ⟨3, -1, [⟨createDedupKey 0 3, leU64 18446744073709551615⟩]⟩) :=
  write_seq_minus_one_bypass 0 ⟨false⟩ [] ⟨[], [], 0⟩ ⟨3, -1, []⟩ rfl rfl

/-- Claim C1 (failing input): at a fresh engine, a batch with processor 1 and
sequence 5 whose first memtable write returns full is retried after exactly
one rotation, but the retry's dedup check sees the sequence stored on the
first pass and silently drops the batch: Write returns success with the
batch applied zero times, not exactly once as the spec states. -/
theorem write_full_retry_drops_batch :
    Write 0 ⟨false⟩ [.full, .ok] ⟨[], [], 0⟩ ⟨1, 5, []⟩ =
      (none, ⟨[(1, 5)], [], 1⟩,
       ⟨1, 5, [⟨createDedupKey 0 1, leU64 5⟩]⟩) ∧
    (Write 0 ⟨false⟩ [.full, .ok] ⟨[], [], 0⟩ ⟨1, 5, []⟩).2.1.applied = [] := by
  constructor
  · rfl
  · rfl

/-- Claim C7: for a processor whose last accepted batch wrote a dedup row
visible in storage, LoadLastBatchSequence reads at most one entry from the
range [dedup_key(p), dedup_key(p)+1) — its result depends only on the head
entry of that range — and restores the dedup map entry for p to exactly the
sequence number of that batch: the little-endian u64 value written by the
write path decodes back to the same int64. -/
theorem loadLastBatchSequence_roundtrip (dbID pid : Nat) (storage : List KV)
    (m : List (Nat × Int)) (seq : Int) (kv : KV) (rest : List KV)
    (h1 : -9223372036854775808 ≤ seq) (h2 : seq < 9223372036854775808)
    (hrange : rangeOf storage (createDedupKey dbID pid)
        (incrementBytesBigEndian (createDedupKey dbID pid)) = kv :: rest)
    (hval : kv.value = leU64 (toUInt64 seq)) :
    LoadLastBatchSequence dbID pid storage m = storeSeq m pid seq ∧
    lookupSeq (LoadLastBatchSequence dbID pid storage m) pid = some seq := by
  have h : LoadLastBatchSequence dbID pid storage m = storeSeq m pid seq := by
    simp only [LoadLastBatchSequence]
    rw [hrange]
    show storeSeq m pid (toInt64 (readU64LE kv.value)) = storeSeq m pid seq
    rw [hval, toInt64_roundtrip seq h1 h2]
  exact ⟨h, h ▸ lookupSeq_storeSeq_self m pid seq⟩

/-- Witness for C7 at a concrete dedup row for processor 4, sequence 10. -/
theorem loadLastBatchSequence_roundtrip_witness :
    LoadLastBatchSequence 0 4 [⟨createDedupKey 0 4, leU64 (toUInt64 10)⟩] [] =
      storeSeq [] 4 10 ∧
    lookupSeq
        (LoadLastBatchSequence 0 4 [⟨createDedupKey 0 4, leU64 (toUInt64 10)⟩] [])
        4 = some 10 :=
  loadLastBatchSequence_roundtrip 0 4 [⟨createDedupKey 0 4, leU64 (toUInt64 10)⟩]
    [] 10 ⟨createDedupKey 0 4, leU64 (toUInt64 10)⟩ []
    (by decide) (by decide) (by decide) rfl

/-- Claim C6: during rotation, every live registered iterator gets a new
iterator over the fresh memtable prepended as the highest-priority source of
its merging cursor, with range start the big-endian byte increment of its
last delivered key when it has delivered one (lastKey set by Current, none
on a fresh handle), else its original range start, and with its original
range end. -/
theorem updateIterators_splice (mtId : Nat) (its : List ShaktiIter) (i : Nat) :
    (updateIterators mtId its)[i]? = (its[i]?).map (fun it =>
      { it with mi := (SourceIter.memtableIterator mtId
          (match it.lastKey with
           | some lastKey => incrementBytesBigEndian lastKey
           | none => it.rangeStart) it.rangeEnd :: it.mi) }) ∧
    (∀ rs re srcs, (newShaktiIterator rs re srcs).lastKey = none) ∧
    (∀ it curr, (ShaktiIter.currentRecord it curr).lastKey = some curr.key) := by
  refine ⟨?_, fun rs re srcs => rfl, fun it curr => rfl⟩
  rw [updateIterators, List.getElem?_map]
  cases its[i]? <;> rfl

/-- Claim C8: rotation is idempotent on a stale pointer — when the passed-in
memtable is no longer the active one, replaceMemtable0 changes nothing: the
active memtable, iterator set, flush queue and last-replace timestamp are
unchanged and no flush-channel signal is sent. -/
theorem replaceMemtable0_stale_noop (st : EngineRot) (memtable now : Nat)
    (h : memtable ≠ st.activeMt) :
    replaceMemtable0 st memtable now = st := by
  simp [replaceMemtable0, h]

/-- Witness for C8 on a concrete stale rotation request. -/
theorem replaceMemtable0_stale_noop_witness :
    replaceMemtable0 ⟨0, 1, [], [], 0, 0⟩ 5 42 = ⟨0, 1, [], [], 0, 0⟩ :=
  replaceMemtable0_stale_noop ⟨0, 1, [], [], 0, 0⟩ 5 42 (by decide)

/-- Claim C2 (failing input): with the last rotation 50 time units ago
(mtLastReplace = 100, now = 150) and a threshold of 1000, the periodic check
computes the uint64 difference mtLastReplace - now, which underflows to
2^64 - 50, so it attempts a rotation (the flush signal fires) even though
the elapsed time 50 is below the threshold — contradicting the predicate
now - lastReplace at least the threshold that the claim and the code's own
comment describe. -/
theorem maybeReplaceMemtable_underflow_bug :
    (maybeReplaceMemtable ⟨0, 1, [], [], 100, 0⟩ 150 1000).1 = true ∧
    (maybeReplaceMemtable ⟨0, 1, [], [], 100, 0⟩ 150 1000).2.flushSignals = 1 ∧
    150 - 100 < 1000 := by
  refine ⟨by decide, by decide, by decide⟩

/-- Claim C5 (failing input): with one non-overlap group [7, 8] of two
sstable ids and an empty flush queue, the group's slot receives a chaining
iterator built over the outer source list as it stood at the call — the
current-memtable iterator plus a nil slot — and not a chaining iterator
over the group's two lazy sstable iterators as the claim requires
(NewChainingIterator receives iters, and chainIters is discarded). -/
theorem newIterator_chain_over_outer_bug :
    NewIteratorSources [[7, 8]] 0 [] [] [] =
      [.memtableIterator 0 [] [],
       .chainingIterator [.memtableIterator 0 [] [], .nilIter]] ∧
    NIter.chainingIterator [.memtableIterator 0 [] [], .nilIter] ≠
      NIter.chainingIterator
        [.lazySSTableIterator 7 [] [], .lazySSTableIterator 8 [] []] := by
  constructor
  · rfl
  · intro h
    injection h with h1
    injection h1 with h2 h3
    exact NIter.noConfusion h2

/-- Ids drained by the registration loop are exactly the ids of the first
i entries of the queue, in queue order. -/
lemma drainRegistered_take (q : List MtFlushEntry) (pos : Nat) :
    (drainRegistered q pos).1 = queueIds (q.take (drainRegistered q pos).2) := by
  induction q generalizing pos with
  | nil => cases pos <;> simp [drainRegistered, queueIds]
  | cons fe rest ih =>
      cases pos with
      | zero => simp [drainRegistered, queueIds]
      | succ p =>
          cases h : fe.ssTabInfo with
          | none => simp [drainRegistered, h, queueIds]
          | some info => simp [drainRegistered, h, queueIds, ih p]

/-- Unfolding of queueIds on a cons cell. -/
lemma queueIds_cons (fe : MtFlushEntry) (q : List MtFlushEntry) :
    queueIds (fe :: q) = fe.memtable :: queueIds q := rfl

/-- Replacing a queue slot by an entry with the same memtable field
preserves the id list. -/
lemma queueIds_set_same (q : List MtFlushEntry) (j : Nat) (e : MtFlushEntry)
    (he : e.memtable = (q.getD j default).memtable) :
    queueIds (q.set j e) = queueIds q := by
  induction q generalizing j with
  | nil => rfl
  | cons fe rest ih =>
      cases j with
      | zero =>
          show queueIds (e :: rest) = queueIds (fe :: rest)
          rw [queueIds_cons, queueIds_cons, he]
          rfl
      | succ p =>
          show queueIds (fe :: rest.set p e) = queueIds (fe :: rest)
          rw [queueIds_cons, queueIds_cons, ih p he]

/-- Splitting the ids of a queue at any point recovers the ids. -/
lemma queueIds_take_drop (q : List MtFlushEntry) (i : Nat) :
    queueIds (q.take i) ++ queueIds (q.drop i) = queueIds q := by
  rw [queueIds, queueIds, queueIds, ← List.map_append, List.take_append_drop]

/-- The drained prefix moves from the queue to the registered list without
disturbing the invariant. -/
lemma registered_drain_eq (st : FlushLoopState) (h : FlushInv st) :
    (st.registered ++ (drainRegistered st.queue st.pos).1) ++
        queueIds (st.queue.drop (drainRegistered st.queue st.pos).2) =
      List.range st.nextMt := by
  rw [List.append_assoc, drainRegistered_take, queueIds_take_drop]
  exact h

/-- One signal iteration of the run loop preserves the invariant. -/
lemma flushInv_signal (st : FlushLoopState) (h : FlushInv st) :
    FlushInv (flushSignalStep st) := by
  simp only [flushSignalStep]
  split
  · exact h
  · split
    · exact registered_drain_eq st h
    · split
      · show _ ++ queueIds (List.set _ _ _) = _
        rw [queueIds_set_same _ _ _ (by rfl)]
        exact registered_drain_eq st h
      · exact registered_drain_eq st h

/-- Every flush-pipeline event preserves the invariant. -/
lemma flushInv_step (st : FlushLoopState) (ev : FlushEvent) (h : FlushInv st) :
    FlushInv (flushStep st ev) := by
  cases ev with
  | rotate =>
      show st.registered ++ queueIds (st.queue ++ [⟨st.nextMt, none, false⟩]) =
        List.range (st.nextMt + 1)
      rw [queueIds, List.map_append, ← List.append_assoc, List.range_succ]
      rw [show st.registered ++ st.queue.map MtFlushEntry.memtable =
        List.range st.nextMt from h]
      rfl
  | uploadDone j info =>
      simp only [flushStep]
      split
      · show _ ++ queueIds (List.set _ _ _) = _
        rw [queueIds_set_same _ _ _ (by rfl)]
        exact h
      · exact h
  | signal => exact flushInv_signal st h

/-- The whole pipeline preserves the invariant. -/
lemma flushInv_run (st : FlushLoopState) (events : List FlushEvent) (h : FlushInv st) :
    FlushInv (runFlushLoop st events) := by
  induction events generalizing st with
  | nil => exact h
  | cons ev rest ih => exact ih (flushStep st ev) (flushInv_step st ev h)

/-- A list that is a left factor of List.range n is an initial segment. -/
lemma eq_range_of_append_eq_range (l1 l2 : List Nat) (n : Nat)
    (h : l1 ++ l2 = List.range n) : l1 = List.range l1.length := by
  have hlen : l1.length ≤ n := by
    have hl := congrArg List.length h
    simp only [List.length_append, List.length_range] at hl
    omega
  have h1 : l1 = (List.range n).take l1.length := by
    rw [← h, List.take_left]
  conv_lhs => rw [h1]
  rw [List.take_range, Nat.min_eq_left hlen]

/-- Claim C3: for every execution of the flush pipeline — any interleaving
of rotations, upload completions and loop signals, so uploads may finish in
any order — flush-queue entries are registered with the controller in
exactly the FIFO order in which their memtables were enqueued at rotation:
the registration loop drains the head only while the head entry's sstable
info is populated, so the registered ids always form the initial segment
0, 1, ..., k-1 of the enqueue sequence, and no entry is ever registered
before an earlier-enqueued one. -/
theorem flush_registration_fifo (events : List FlushEvent) :
    (runFlushLoop initFlushState events).registered =
      List.range (runFlushLoop initFlushState events).registered.length := by
  have h : FlushInv (runFlushLoop initFlushState events) :=
    flushInv_run initFlushState events (by simp [FlushInv, initFlushState, queueIds])
  exact eq_range_of_append_eq_range _ _ _ h

end Shakti
